import Mathlib

/-!
Verification of the cache-coherent persistence layer of boardgame.io's
server `db` module (`src/server/db/sql.js`, `src/server/db/mongo.js`,
`src/server/db/inmemory.js`, `src/server/db/firebase.js`).

Each connector composes a write-through LRU cache with a durable store and
exposes `connect, get, set, has`.  The embedding below models:

* `GameState` — the JSON state object.  Every state modelled here carries an
  integer `_stateID` (the layer interprets no other field; the claims under
  verification all restrict to states with integer stateIDs); `hasId` records
  the presence of the store-internal `_id` property; `payload` stands for the
  opaque remainder of the document.
* the cache — `lru-cache` is an external npm dependency, modelled at its
  interface boundary as a key-to-value map.  Its LRU recency bookkeeping and
  capacity bound are not modelled: no claim under verification concerns
  eviction, and every facade code path reads the cache only through
  `cache.get`, which returns the stored value for present keys and
  `undefined` otherwise.
* the durable-store adapters (Sequelize, the MongoDB driver) — external
  dependencies, modelled at the interface boundary given in the spec
  (`findOne`, `upsert`/`insert`, `authenticate`): each facade operation takes
  the outcome of its single store I/O call as an explicit argument, and a
  store call that fails is an `Except.error` which the facade may or may not
  propagate, exactly as the source's `await` does.
* JavaScript semantics where they matter: `>=` against `undefined` is false
  (`jsGe`), property access on `null` throws a `TypeError`, and `delete
  state._id` mutates the caller's object, which is the same reference the
  cache stores.

Asynchrony: the process is single-threaded and operations suspend only at
store I/O.  A facade operation is therefore a sequence of atomic cache
phases separated by suspension points; `SqlAction`/`sqlCacheStep` below give
those atomic phases for the SQL connector so that properties over arbitrary
interleavings of `get`/`set` become properties of a single atomic step
applied to an arbitrary current cache.
-/

/-- A game state document.  `stateID` is the `_stateID` field (an integer in
every claim considered here), `hasId` records whether the store-identity
field `_id` is present, and `payload` abstracts all remaining data. -/
structure GameState where
  stateID : Int
  hasId : Bool
  payload : Nat
  deriving DecidableEq, Repr

/-- `delete state._id`: removes the store-identity field, leaving the rest of
the object untouched. -/
def stripId (s : GameState) : GameState := { s with hasId := false }

/-- A row of the SQL `game` table.  The Sequelize model (`GameModel` in
`sql.js` / `mysql.js` / `sqlite.js`) declares exactly two columns: the
primary key `id` and the JSON column `ctx` holding the game state.  In
particular a row object has no top-level `_stateID` property. -/
structure Row where
  id : String
  ctx : GameState
  deriving DecidableEq, Repr

/-- Errors that can surface from a facade operation: a rejected store call
(`storeErr`, carrying an opaque code) or a JavaScript `TypeError` raised by
a property access on `null`. -/
inductive JsErr where
  | storeErr (code : Nat)
  | typeError
  deriving DecidableEq, Repr

/-- A value held in the SQL connector's cache.  `SQL.set` stores game
states; `SQL.get`'s cache update `cache.set(id, doc)` stores the `findOne`
result, which is either a row object or JavaScript `null`. -/
inductive CacheVal where
  | state (s : GameState)
  | row (r : Row)
  | jsnull
  deriving DecidableEq, Repr

/-- JavaScript `a >= b` where either operand may be `undefined` (modelled as
`none`): comparison against `undefined` is `false`. -/
def jsGe : Option Int → Option Int → Bool
  | some a, some b => decide (b ≤ a)
  | _, _ => false

/-- Outcome of the store adapter's `authenticate()` / `connect()` call, per
the spec's adapter interface: a connection error value, or success (for the
Mongo driver, success carries the client handle, abstracted to a number). -/
inductive AuthResult where
  | success
  | connError (code : Nat)
  deriving DecidableEq, Repr

namespace SQL

/-- The connector's cache, keyed by game id.  `none` is a missing key
(`cache.get` returns `undefined`). -/
abbrev Cache := String → Option CacheVal

/-- The SQL `game` table: a list of rows.  That `id` is a primary key (at
most one row per id) is an invariant proved about `upsert`, not baked into
the type. -/
abbrev Store := List Row

/-- `cache.set(id, v)`. -/
def cacheWrite (c : Cache) (id : String) (v : CacheVal) : Cache :=
  fun i => if i = id then some v else c i

/-- `db.findOne({ where: { id } })`: the row with the given primary key, or
`null` (here `none`). -/
def findOne (rows : Store) (id : String) : Option Row :=
  rows.find? (fun r => r.id = id)

/-- `game.upsert(row)`: replace the row with the same primary key if one
exists, insert otherwise. -/
def upsert (rows : Store) (r : Row) : Store :=
  if rows.any (fun x => x.id = r.id) then
    rows.map (fun x => if x.id = r.id then r else x)
  else rows ++ [r]

/-- `SQL.connect` (sql.js lines 16–23): `const c = await
this.db.authenticate(); if (c) return console.error('Connection error', c)`.
A reported connection error is logged (the result carries the logged code)
and the call returns normally either way. -/
def connect : AuthResult → Except JsErr (Option Nat)
  | .success => .ok none
  | .connError e => .ok (some e)

/-- The staleness guard of `SQL.set` (sql.js lines 48–51): `cacheValue &&
cacheValue._stateID >= state._stateID`.  A missing key (`undefined`) and a
cached `null` are falsy; a cached row object is truthy but has no
`_stateID`, so the `>=` against `undefined` is false. -/
def setStale (c : Cache) (id : String) (state : GameState) : Bool :=
  match c id with
  | some (.state cv) => jsGe (some cv.stateID) (some state.stateID)
  | _ => false

/-- Result of `SQL.set`: the cache and store afterwards, the value of the
caller's `state` object after the call (the call mutates it via `delete
state._id`), and the error propagated out, if any. -/
structure SetResult where
  cache : Cache
  store : Store
  caller : GameState
  err : Option JsErr

/-- `SQL.set` (sql.js lines 30–59).  If the staleness guard fires, return
without touching cache or store.  Otherwise `this.cache.set(id, state)`
stores the caller's object by reference, `delete state._id` then mutates
that shared object, and `this.game.upsert({ id, ctx: state })` persists it;
so the cached entry at return time is the stripped object.  `upsertErr` is
the outcome of the awaited upsert: a rejection propagates after the cache
was already updated. -/
def set (c : Cache) (rows : Store) (id : String) (state : GameState)
    (upsertErr : Option JsErr) : SetResult :=
  if setStale c id state then ⟨c, rows, state, none⟩
  else
    let s1 := stripId state
    let c1 := cacheWrite c id (.state s1)
    match upsertErr with
    | some e => ⟨c1, rows, s1, some e⟩
    | none => ⟨c1, upsert rows ⟨id, s1⟩, s1, none⟩

/-- Result of `SQL.get`: the cache afterwards and the returned value —
`.ok` with the returned JavaScript value, or `.error` when the call throws. -/
structure GetResult where
  cache : Cache
  ret : Except JsErr CacheVal

/-- The commit phase of `SQL.get` (sql.js lines 75–96), run after the
`findOne` await resumes, against the cache as it stands at that moment
(`c` here): re-read the cache; `oldStateID` is `0` when the re-read is
`undefined`, else `cacheValue._stateID` (reading `._stateID` on a cached
`null` throws; on a cached row it is `undefined`); `newStateID` is `-1`
when no row was found, else `doc._stateID` — which is `undefined`, since
rows carry only `id` and `ctx`; update the cache with `doc` only if
`newStateID >= oldStateID`; finally `return doc.ctx`, which throws when
`doc` is `null`. -/
def getCommit (c : Cache) (id : String) (doc : Option Row) : GetResult :=
  match c id with
  | some .jsnull => ⟨c, .error .typeError⟩
  | cv =>
    let oldStateID : Option Int :=
      match cv with
      | some (.state s) => some s.stateID
      | some (.row _) => none
      | _ => some 0
    let newStateID : Option Int :=
      match doc with
      | some _ => none
      | none => some (-1)
    let c1 : Cache :=
      if jsGe newStateID oldStateID then
        cacheWrite c id (match doc with | some r => .row r | none => .jsnull)
      else c
    match doc with
    | some r => ⟨c1, .ok (.state r.ctx)⟩
    | none => ⟨c1, .error .typeError⟩

/-- `SQL.get` (sql.js lines 67–97), run without interleaving: cache hit
returns the cached value directly; on a miss the `findOne` outcome
(`findRes`; a rejection propagates) feeds the commit phase against the same
cache. -/
def get (c : Cache) (id : String) (findRes : Except JsErr (Option Row)) : GetResult :=
  match c id with
  | some v => ⟨c, .ok v⟩
  | none =>
    match findRes with
    | .error e => ⟨c, .error e⟩
    | .ok doc => getCommit c id doc

/-- Result of `SQL.has`: the cache afterwards and the returned boolean (or
a propagated store error). -/
structure HasResult where
  cache : Cache
  ret : Except JsErr Bool

/-- `SQL.has` (sql.js lines 104–112): cache hit returns `true` immediately;
on a miss, `findOne` decides — `return doc !== null`. -/
def has (c : Cache) (id : String) (findRes : Except JsErr (Option Row)) : HasResult :=
  match c id with
  | some _ => ⟨c, .ok true⟩
  | none =>
    match findRes with
    | .error e => ⟨c, .error e⟩
    | .ok doc => ⟨c, .ok doc.isSome⟩

end SQL

namespace Mongo

/-- The Mongo connector's cache.  `Mongo.set` stores game states and
`Mongo.get`'s update `cache.set(id, docs[0])` stores `undefined` when the
collection is empty — indistinguishable from a missing key through
`cache.get`, hence modelled as `none`. -/
abbrev Cache := String → Option GameState

/-- The Mongo store: one collection per game id (`db.collection(id)`),
holding the inserted documents in insertion order (ObjectId order). -/
abbrev Store := String → List GameState

/-- `cache.set(id, v)`, where `v` may be `undefined` (`none`). -/
def cacheWrite (c : Cache) (id : String) (v : Option GameState) : Cache :=
  fun i => if i = id then v else c i

/-- `Mongo.connect` (mongo.js lines 127–131): `const c = await
this.client.connect(this.url); this.db = c.db(this.dbname)` — no error
handling.  Under the adapter interface (`ConnectionError | success`), a
connection error value has no `.db` method, so the property call throws;
under a rejecting driver the `await` itself throws.  Either way the failure
propagates and nothing is logged. -/
def connect : AuthResult → Except JsErr Unit
  | .success => .ok ()
  | .connError _ => .error .typeError

/-- The staleness guard of `Mongo.set` (mongo.js lines 156–159), identical
to the SQL one; the Mongo cache holds only game states. -/
def setStale (c : Cache) (id : String) (state : GameState) : Bool :=
  match c id with
  | some cv => jsGe (some cv.stateID) (some state.stateID)
  | none => false

/-- Result of `Mongo.set`, with the caller's object value after the call. -/
structure SetResult where
  cache : Cache
  store : Store
  caller : GameState
  err : Option JsErr

/-- `Mongo.set` (mongo.js lines 138–168).  Past the guard:
`this.cache.set(id, state)` stores the caller's object by reference,
`delete state._id` mutates it, and `col.insert(state)` **appends** a new
document to the per-game collection (insert, not upsert).  `insertErr` is
the awaited insert outcome. -/
def set (c : Cache) (st : Store) (id : String) (state : GameState)
    (insertErr : Option JsErr) : SetResult :=
  if setStale c id state then ⟨c, st, state, none⟩
  else
    let s1 := stripId state
    let c1 := cacheWrite c id (some s1)
    match insertErr with
    | some e => ⟨c1, st, s1, some e⟩
    | none => ⟨c1, fun i => if i = id then st i ++ [s1] else st i, s1, none⟩

/-- `col.find().sort({_id: -1}).limit(1).toArray()`: the most recently
inserted document of the collection, or none. -/
def latestDoc (st : Store) (id : String) : Option GameState :=
  (st id).getLast?

/-- `oldStateID` of the `Mongo.get` re-check (mongo.js lines 189–195): the
re-read cache entry's `_stateID` when present, `0` otherwise. -/
def oldStateID (c : Cache) (id : String) : Int :=
  match c id with
  | some cv => cv.stateID
  | none => 0

/-- `newStateID` of the `Mongo.get` re-check (mongo.js lines 197–200): the
fetched document's `_stateID` when one was found, `-1` otherwise. -/
def newStateID (docs0 : Option GameState) : Int :=
  match docs0 with
  | some d => d.stateID
  | none => -1

/-- Result of `Mongo.get`: cache afterwards, and the returned value
(`docs[0]`, which is `undefined` — `none` — for an empty collection). -/
structure GetResult where
  cache : Cache
  ret : Except JsErr (Option GameState)

/-- The commit phase of `Mongo.get` (mongo.js lines 189–210), run against
the cache as it stands when the store read resumes: update the cache with
`docs[0]` only if `newStateID >= oldStateID` (an empty result stores
`undefined`, erasing the entry), then return `docs[0]`. -/
def getCommit (c : Cache) (id : String) (docs0 : Option GameState) : GetResult :=
  let c1 : Cache :=
    if newStateID docs0 ≥ oldStateID c id then cacheWrite c id docs0 else c
  ⟨c1, .ok docs0⟩

/-- `Mongo.get` (mongo.js lines 176–211), run without interleaving. -/
def get (c : Cache) (id : String) (findRes : Except JsErr (Option GameState)) : GetResult :=
  match c id with
  | some v => ⟨c, .ok (some v)⟩
  | none =>
    match findRes with
    | .error e => ⟨c, .error e⟩
    | .ok docs0 => getCommit c id docs0

/-- Result of `Mongo.has`. -/
structure HasResult where
  cache : Cache
  ret : Except JsErr Bool

/-- `Mongo.has` (mongo.js lines 218–230): cache hit returns `true`; on a
miss, `col.find().limit(1).toArray()` (modelled by passing its outcome, a
list of at most one document) decides via `docs.length > 0`. -/
def has (c : Cache) (id : String) (findRes : Except JsErr (List GameState)) : HasResult :=
  match c id with
  | some _ => ⟨c, .ok true⟩
  | none =>
    match findRes with
    | .error e => ⟨c, .error e⟩
    | .ok docs => ⟨c, .ok (decide (0 < docs.length))⟩

end Mongo

namespace InMemory

/-- The `InMemory` backend's `Map` of games. -/
abbrev Store := String → Option GameState

/-- `InMemory.set` (inmemory.js lines 83–85): `this.games.set(id, state)` —
unconditional replacement, no staleness guard, no cache. -/
def set (g : Store) (id : String) (state : GameState) : Store :=
  fun i => if i = id then some state else g i

/-- `InMemory.get` (inmemory.js lines 93–95). -/
def get (g : Store) (id : String) : Option GameState := g id

/-- `InMemory.has` (inmemory.js lines 102–104). -/
def has (g : Store) (id : String) : Bool := (g id).isSome

end InMemory

namespace Firebase

/-- The Firebase connector's cache; like Mongo's it holds game states
(`Firebase.set` stores states, `Firebase.get`'s update stores the fetched
document, which is the state itself, or the absent result, erasing the
entry). -/
abbrev Cache := String → Option GameState

/-- The Firebase store: one document per game id.  Both engine branches
address the document for the id — `db.ref(id)` under RTD,
`db.collection(dbname).doc(id)` under Firestore — and `col.set(state)`
replaces that document, so at the adapter interface the engines behave
identically and the model abstracts the engine choice. -/
abbrev Store := String → Option GameState

/-- `cache.set(id, v)`, where `v` may be the absent result. -/
def cacheWrite (c : Cache) (id : String) (v : Option GameState) : Cache :=
  fun i => if i = id then v else c i

/-- The staleness guard of `Firebase.set` (firebase.js lines 300–303),
identical to the Mongo one. -/
def setStale (c : Cache) (id : String) (state : GameState) : Bool :=
  match c id with
  | some cv => jsGe (some cv.stateID) (some state.stateID)
  | none => false

/-- Result of `Firebase.set`, with the caller's object value after the
call. -/
structure SetResult where
  cache : Cache
  store : Store
  caller : GameState
  err : Option JsErr

/-- `Firebase.set` (firebase.js lines 281–315).  Past the guard:
`this.cache.set(id, state)` stores the caller's object by reference,
`delete state._id` mutates it, and `col.set(state)` replaces the document
at the game's path.  `writeErr` is the awaited write outcome. -/
def set (c : Cache) (st : Store) (id : String) (state : GameState)
    (writeErr : Option JsErr) : SetResult :=
  if setStale c id state then ⟨c, st, state, none⟩
  else
    let s1 := stripId state
    let c1 := cacheWrite c id (some s1)
    match writeErr with
    | some e => ⟨c1, st, s1, some e⟩
    | none => ⟨c1, fun i => if i = id then some s1 else st i, s1, none⟩

/-- `oldStateID` of the `Firebase.get` re-check (firebase.js lines
350–356): the re-read cache entry's `_stateID` when present, `0`
otherwise. -/
def oldStateID (c : Cache) (id : String) : Int :=
  match c id with
  | some cv => cv.stateID
  | none => 0

/-- `newStateID` of the `Firebase.get` re-check (firebase.js lines
358–361): the fetched document's `_stateID` when one exists, `-1`
otherwise. -/
def newStateID (doc : Option GameState) : Int :=
  match doc with
  | some d => d.stateID
  | none => -1

/-- Result of `Firebase.get`: cache afterwards, and the returned document
(`doc`, which is the absence sentinel — RTD `val()` gives `null`,
Firestore `data()` gives `undefined` — when no document exists). -/
structure GetResult where
  cache : Cache
  ret : Except JsErr (Option GameState)

/-- The commit phase of `Firebase.get` (firebase.js lines 350–371), run
against the cache as it stands when the store read resumes: update the
cache with `doc` only if `newStateID >= oldStateID` (an absent result
erases the entry), then return `doc`. -/
def getCommit (c : Cache) (id : String) (doc : Option GameState) : GetResult :=
  let c1 : Cache :=
    if newStateID doc ≥ oldStateID c id then cacheWrite c id doc else c
  ⟨c1, .ok doc⟩

/-- `Firebase.get` (firebase.js lines 323–372), run without interleaving:
cache hit returns the cached value; on a miss the awaited document read
(`findRes`; a rejection propagates) feeds the commit phase. -/
def get (c : Cache) (id : String) (findRes : Except JsErr (Option GameState)) : GetResult :=
  match c id with
  | some v => ⟨c, .ok (some v)⟩
  | none =>
    match findRes with
    | .error e => ⟨c, .error e⟩
    | .ok doc => getCommit c id doc

/-- Result of `Firebase.has`. -/
structure HasResult where
  cache : Cache
  ret : Except JsErr Bool

/-- `Firebase.has` (firebase.js lines 379–404): cache hit returns `true`
immediately; on a miss the awaited existence check (RTD `data.exists()`,
Firestore `data.exists`; a rejection propagates) is returned. -/
def has (c : Cache) (id : String) (existsRes : Except JsErr Bool) : HasResult :=
  match c id with
  | some _ => ⟨c, .ok true⟩
  | none =>
    match existsRes with
    | .error e => ⟨c, .error e⟩
    | .ok b => ⟨c, .ok b⟩

end Firebase

/-- One atomic cache phase of a SQL-connector operation.  Operations suspend
only at store I/O, so an arbitrary interleaving of `get`/`set`/`has` calls
is a sequence of these steps: the guard-and-write prefix of `set` (its
later `upsert` await never touches the cache), the post-await commit phase
of `get` on a miss (carrying whatever `findOne` returned when it was
issued), the read-only fast path of `get` on a hit, and the read-only
`has`. -/
inductive SqlAction where
  | setA (id : String) (state : GameState)
  | getCommitA (id : String) (doc : Option Row)
  | getHitA (id : String)
  | hasA (id : String)

/-- Effect of one atomic step on the SQL connector's cache (the store plays
no role in any cache phase, so `SQL.set` is applied to an arbitrary store). -/
def sqlCacheStep (act : SqlAction) (c : SQL.Cache) : SQL.Cache :=
  match act with
  | .setA id state => (SQL.set c [] id state none).cache
  | .getCommitA id doc => (SQL.getCommit c id doc).cache
  | .getHitA _ => c
  | .hasA _ => c

/-- Rows have pairwise distinct primary keys: the store holds at most one
document per game id. -/
def oneRowPerId (rows : SQL.Store) : Prop :=
  rows.Pairwise (fun a b => a.id ≠ b.id)

/-- Run a sequence of (successful) `SQL.set` calls from a given cache and
store. -/
def sqlRunSets : List (String × GameState) → SQL.Cache → SQL.Store → SQL.Cache × SQL.Store
  | [], c, rows => (c, rows)
  | (id, s) :: rest, c, rows =>
    sqlRunSets rest (SQL.set c rows id s none).cache (SQL.set c rows id s none).store

/-- Fixture: a Mongo cache holding a state with negative stateID `-2` for
game `"g"`. -/
def cacheNeg2 : Mongo.Cache :=
  fun i => if i = "g" then some ⟨-2, false, 0⟩ else none

/-- Fixture: a Mongo cache holding a state with stateID `2` for game `"g"`. -/
def cachePos2 : Mongo.Cache :=
  fun i => if i = "g" then some ⟨2, false, 0⟩ else none

/-- Fixture: a SQL cache holding a state with stateID `5` for game `"g"`. -/
def sqlCache5 : SQL.Cache :=
  fun i => if i = "g" then some (.state ⟨5, false, 0⟩) else none

/-- Fixture: a state with stateID `0` that still carries a store `_id`. -/
def stateWithId : GameState := ⟨0, true, 7⟩

/-- Fixture: the SQL store produced by `set("g", stateWithId)` on a cold
connector. -/
def sqlStoreAfterSet : SQL.Store :=
  (SQL.set (fun _ => none) [] "g" stateWithId none).store

/-- Scenario for the monotonic-ordering property: on a cold SQL connector,
`set(id, sa)` followed by `set(id, sb)`. -/
def sqlTwoSets (id : String) (sa sb : GameState) : SQL.SetResult :=
  SQL.set (SQL.set (fun _ => none) [] id sa none).cache
    (SQL.set (fun _ => none) [] id sa none).store id sb none

/-- Scenario for the monotonic-ordering property: on a cold Mongo connector,
`set(id, sa)` followed by `set(id, sb)`. -/
def mongoTwoSets (id : String) (sa sb : GameState) : Mongo.SetResult :=
  Mongo.set (Mongo.set (fun _ => none) (fun _ => []) id sa none).cache
    (Mongo.set (fun _ => none) (fun _ => []) id sa none).store id sb none

/-- The `stateID` field survives `delete state._id`. -/
theorem stripId_stateID (s : GameState) : (stripId s).stateID = s.stateID := rfl

/-- C4: the claim says `get(id)` for a never-set id (empty cache, empty
store) returns the absence sentinel and does not raise.  The Mongo
connector does return the sentinel (`undefined`), but the SQL connector
evaluates `doc.ctx` with `doc = null` and throws a `TypeError`,
contradicting its own doc comment ("A game state, or undefined if no game
is found with this id"). -/
theorem C4_not_found_behavior :
    (SQL.get (fun _ => none) "gameID" (.ok none)).ret = .error .typeError
    ∧ (Mongo.get (fun _ => none) "gameID" (.ok none)).ret = .ok none := by
  constructor
  · rfl
  · rfl

/-- C8: the claim says a cold-cache `get` of a previously `set` id returns
the state and populates the cache.  On the SQL connector the returned value
is right, but the cache is **not** populated: the re-check reads
`doc._stateID` on the row wrapper (always `undefined`, the stateID lives in
`doc.ctx._stateID`), so the comparison fails and the entry stays absent —
the next `get` must hit the store again. -/
theorem C8_sql_get_does_not_populate_cache :
    (SQL.get (fun _ => none) "g" (.ok (SQL.findOne sqlStoreAfterSet "g"))).ret
      = .ok (.state (stripId stateWithId))
    ∧ (SQL.get (fun _ => none) "g" (.ok (SQL.findOne sqlStoreAfterSet "g"))).cache "g"
      = none := by
  constructor
  · rfl
  · rfl

/-- C3 counterexample: the claim says a missing store document never
overwrites an existing cache entry; but when the cached entry's stateID is
`-2`, the re-check computes `newStateID = -1 >= -2 = oldStateID` and
executes `cache.set(id, docs[0])` with `docs` empty, replacing the entry
with `undefined`. -/
theorem C3_counterexample :
    cacheNeg2 "g" = some ⟨-2, false, 0⟩
    ∧ (Mongo.getCommit cacheNeg2 "g" none).cache "g" = none := by
  constructor
  · rfl
  · rfl

/-- C5 counterexample: the claim says every non-stale `set` persists via an
idempotent upsert so the store holds at most one document per game id; but
`Mongo.set` uses `col.insert`, which appends — two non-stale sets leave two
documents in the game's collection. -/
theorem C5_counterexample :
    ¬ ((Mongo.set
          (Mongo.set (fun _ => none) (fun _ => []) "g" ⟨0, false, 0⟩ none).cache
          (Mongo.set (fun _ => none) (fun _ => []) "g" ⟨0, false, 0⟩ none).store
          "g" ⟨1, false, 1⟩ none).store "g").length ≤ 1 := by
  decide

/-- C6 counterexample: the claim says every connector logs a connection
failure and returns normally from `connect()`; `Mongo.connect` has no error
handling — the failure propagates (calling `.db` on the error outcome
throws; with a rejecting driver the `await` itself throws) and nothing is
logged. -/
theorem C6_counterexample :
    Mongo.connect (.connError 7) = .error .typeError := rfl

/-- C10: the `InMemory` backend has no monotonicity guard — `set`
unconditionally replaces the entry, so after `set(id, s1)` then
`set(id, s2)` a `get(id)` returns `s2` even when `s2.stateID <
s1.stateID`. -/
theorem C10_inmemory_no_guard (g : InMemory.Store) (id : String)
    (s1 s2 : GameState) (h : s2.stateID < s1.stateID) :
    InMemory.get (InMemory.set (InMemory.set g id s1) id s2) id = some s2 := by
  simp [InMemory.get, InMemory.set]

/-- Witness for C10 at a concrete input. -/
theorem C10_inmemory_no_guard_witness :
    InMemory.get
      (InMemory.set (InMemory.set (fun _ => none) "g" ⟨3, false, 0⟩) "g" ⟨1, false, 1⟩)
      "g" = some ⟨1, false, 1⟩ :=
  C10_inmemory_no_guard (fun _ => none) "g" ⟨3, false, 0⟩ ⟨1, false, 1⟩ (by decide)

/-- JavaScript `>=` with an undefined left operand is false. -/
theorem jsGe_none_left (y : Option Int) : jsGe none y = false := by
  cases y <;> rfl

/-- JavaScript `>=` with an undefined right operand is false. -/
theorem jsGe_none_right (x : Option Int) : jsGe x none = false := by
  cases x <;> rfl

/-- JavaScript `>=` on two numbers is the numeric comparison. -/
theorem jsGe_some_some (a b : Int) : jsGe (some a) (some b) = decide (b ≤ a) := rfl

/-- C1: monotonicity invariant.  Every atomic cache phase of the SQL
connector (and hence every step of every interleaving of `get` and `set`
calls, over states carrying integer stateIDs) that finds a state cached for
an id and leaves a state cached for that id leaves one with a stateID no
smaller than the one currently held: `set` writes only past the
strictly-greater guard, and the `get` commit phase either leaves the entry
alone or (when no row was found and the cached stateID is at most `-1`)
replaces it with `null`, never with a lower-stateID state. -/
theorem C1_cache_never_regresses (act : SqlAction) (c : SQL.Cache) (id : String)
    (s t : GameState)
    (hbefore : c id = some (.state s))
    (hafter : sqlCacheStep act c id = some (.state t)) :
    s.stateID ≤ t.stateID := by
  cases act with
  | setA id2 st =>
    by_cases hst : SQL.setStale c id2 st
    · simp only [sqlCacheStep, SQL.set, if_pos hst] at hafter
      rw [hbefore] at hafter
      simp only [Option.some.injEq, CacheVal.state.injEq] at hafter
      rw [hafter]
    · simp only [sqlCacheStep, SQL.set, if_neg hst, SQL.cacheWrite] at hafter
      by_cases hid : id = id2
      · subst hid
        rw [if_pos rfl] at hafter
        simp only [Option.some.injEq, CacheVal.state.injEq] at hafter
        subst hafter
        simp only [SQL.setStale, hbefore, jsGe, decide_eq_true_eq] at hst
        simp only [stripId]
        omega
      · rw [if_neg hid] at hafter
        rw [hbefore] at hafter
        simp only [Option.some.injEq, CacheVal.state.injEq] at hafter
        rw [hafter]
  | getCommitA id2 doc =>
    cases doc with
    | some r =>
      simp only [sqlCacheStep, SQL.getCommit] at hafter
      cases hc2 : c id2 with
      | none =>
        simp only [hc2, jsGe_none_left, Bool.false_eq_true, if_false] at hafter
        rw [hbefore] at hafter
        simp only [Option.some.injEq, CacheVal.state.injEq] at hafter
        rw [hafter]
      | some v =>
        cases v with
        | jsnull =>
          simp only [hc2] at hafter
          rw [hbefore] at hafter
          simp only [Option.some.injEq, CacheVal.state.injEq] at hafter
          rw [hafter]
        | state s2 =>
          simp only [hc2, jsGe_none_left, Bool.false_eq_true, if_false] at hafter
          rw [hbefore] at hafter
          simp only [Option.some.injEq, CacheVal.state.injEq] at hafter
          rw [hafter]
        | row r2 =>
          simp only [hc2, jsGe_none_left, Bool.false_eq_true, if_false] at hafter
          rw [hbefore] at hafter
          simp only [Option.some.injEq, CacheVal.state.injEq] at hafter
          rw [hafter]
    | none =>
      simp only [sqlCacheStep, SQL.getCommit] at hafter
      cases hc2 : c id2 with
      | none =>
        simp only [hc2, jsGe_some_some] at hafter
        norm_num at hafter
        rw [hbefore] at hafter
        simp only [Option.some.injEq, CacheVal.state.injEq] at hafter
        rw [hafter]
      | some v =>
        cases v with
        | jsnull =>
          simp only [hc2] at hafter
          rw [hbefore] at hafter
          simp only [Option.some.injEq, CacheVal.state.injEq] at hafter
          rw [hafter]
        | row r2 =>
          simp only [hc2, jsGe_none_right, Bool.false_eq_true, if_false] at hafter
          rw [hbefore] at hafter
          simp only [Option.some.injEq, CacheVal.state.injEq] at hafter
          rw [hafter]
        | state s2 =>
          simp only [hc2, jsGe_some_some] at hafter
          split at hafter
          · by_cases hid : id = id2
            · subst hid
              simp only [SQL.cacheWrite, if_pos rfl] at hafter
              exact absurd hafter (by simp)
            · simp only [SQL.cacheWrite, if_neg hid] at hafter
              rw [hbefore] at hafter
              simp only [Option.some.injEq, CacheVal.state.injEq] at hafter
              rw [hafter]
          · rw [hbefore] at hafter
            simp only [Option.some.injEq, CacheVal.state.injEq] at hafter
            rw [hafter]
  | getHitA id2 =>
    simp only [sqlCacheStep] at hafter
    rw [hbefore] at hafter
    simp only [Option.some.injEq, CacheVal.state.injEq] at hafter
    rw [hafter]
  | hasA id2 =>
    simp only [sqlCacheStep] at hafter
    rw [hbefore] at hafter
    simp only [Option.some.injEq, CacheVal.state.injEq] at hafter
    rw [hafter]

/-- Witness for C1: a `set` of stateID 7 over a cached stateID 5. -/
theorem C1_cache_never_regresses_witness :
    (⟨5, false, 0⟩ : GameState).stateID ≤ (⟨7, false, 1⟩ : GameState).stateID :=
  C1_cache_never_regresses (.setA "g" ⟨7, false, 1⟩) sqlCache5 "g"
    ⟨5, false, 0⟩ ⟨7, false, 1⟩ (by decide) (by decide)

/-- C2: stale-set no-op.  If the cache already holds an entry for the id
with a stateID at least the incoming one, `set` returns without modifying
cache or store (and without consulting the store at all); consequently, on
both the SQL and Mongo connectors, `set(id, sa)` followed by `set(id, sb)`
with `sb.stateID < sa.stateID` leaves a `get(id)` returning the state with
the larger stateID (the later-arriving-but-older write is discarded). -/
theorem C2_stale_set_noop :
    (∀ (c : SQL.Cache) (rows : SQL.Store) (id : String) (state s : GameState)
        (ue : Option JsErr),
      c id = some (.state s) → state.stateID ≤ s.stateID →
      SQL.set c rows id state ue = ⟨c, rows, state, none⟩)
    ∧ (∀ (c : Mongo.Cache) (st : Mongo.Store) (id : String) (state s : GameState)
        (ie : Option JsErr),
      c id = some s → state.stateID ≤ s.stateID →
      Mongo.set c st id state ie = ⟨c, st, state, none⟩)
    ∧ (∀ (id : String) (sa sb : GameState), sb.stateID < sa.stateID →
      (SQL.get (sqlTwoSets id sa sb).cache id
          (.ok (SQL.findOne (sqlTwoSets id sa sb).store id))).ret
        = .ok (.state (stripId sa)))
    ∧ (∀ (id : String) (sa sb : GameState), sb.stateID < sa.stateID →
      (Mongo.get (mongoTwoSets id sa sb).cache id
          (.ok (Mongo.latestDoc (mongoTwoSets id sa sb).store id))).ret
        = .ok (some (stripId sa))) := by
  refine ⟨?_, ?_, ?_, ?_⟩
  · intro c rows id state s ue hc hle
    simp [SQL.set, SQL.setStale, hc, jsGe_some_some, hle]
  · intro c st id state s ie hc hle
    simp [Mongo.set, Mongo.setStale, hc, jsGe_some_some, hle]
  · intro id sa sb h
    have h1 : sb.stateID ≤ sa.stateID := le_of_lt h
    simp [sqlTwoSets, SQL.set, SQL.setStale, SQL.cacheWrite, SQL.get,
      jsGe_some_some, stripId, h1]
  · intro id sa sb h
    have h1 : sb.stateID ≤ sa.stateID := le_of_lt h
    simp [mongoTwoSets, Mongo.set, Mongo.setStale, Mongo.cacheWrite, Mongo.get,
      jsGe_some_some, stripId, h1]

/-- Witness for C2: a `set` of stateID 3 against a cached stateID 5 is a
no-op. -/
theorem C2_stale_set_noop_witness :
    SQL.set sqlCache5 [] "g" ⟨3, false, 1⟩ none = ⟨sqlCache5, [], ⟨3, false, 1⟩, none⟩ :=
  C2_stale_set_noop.1 sqlCache5 [] "g" ⟨3, false, 1⟩ ⟨5, false, 0⟩ none (by decide) (by decide)

/-- C3 (amended): the `Mongo.get` re-check formula.  On the commit phase of
a cache-miss `get`, `oldStateID` is the re-read cache entry's stateID (0
when absent), `newStateID` is the fetched document's stateID (-1 when
absent), the entry for the id is set to the store's result exactly when
`newStateID >= oldStateID` and no other entry changes; and a missing store
document never overwrites an existing cache entry **whose stateID is
nonnegative** (the unamended claim fails for a cached stateID ≤ -1, which
`-1 >= oldStateID` lets an empty read erase — see the counterexample). -/
theorem C3_get_recheck_formula (c : Mongo.Cache) (id : String) (docs0 : Option GameState) :
    ((Mongo.getCommit c id docs0).cache id
        = if Mongo.newStateID docs0 ≥ Mongo.oldStateID c id then docs0 else c id)
    ∧ (∀ j, j ≠ id → (Mongo.getCommit c id docs0).cache j = c j)
    ∧ (docs0 = none → ∀ s, c id = some s → 0 ≤ s.stateID →
        (Mongo.getCommit c id docs0).cache id = some s) := by
  refine ⟨?_, ?_, ?_⟩
  · simp only [Mongo.getCommit, Mongo.cacheWrite]
    split
    · simp [Mongo.cacheWrite]
    · rfl
  · intro j hj
    simp only [Mongo.getCommit, Mongo.cacheWrite]
    split
    · simp [Mongo.cacheWrite, hj]
    · rfl
  · rintro rfl s hs hnn
    have hng : ¬ (Mongo.newStateID none ≥ Mongo.oldStateID c id) := by
      simp only [Mongo.newStateID, Mongo.oldStateID, hs]
      omega
    simp only [Mongo.getCommit, if_neg hng]
    exact hs

/-- Witness for C3 (amended): a missing store document leaves a cached
stateID-2 entry alone. -/
theorem C3_get_recheck_formula_witness :
    (Mongo.getCommit cachePos2 "g" none).cache "g" = some ⟨2, false, 0⟩ :=
  (C3_get_recheck_formula cachePos2 "g" none).2.2 rfl ⟨2, false, 0⟩ (by decide) (by decide)

/-- Replacing rows keyed like `r` does not change a row's primary key. -/
theorem upsert_id_pointwise (r x : Row) :
    (if x.id = r.id then r else x).id = x.id := by
  split
  · next hx => rw [hx]
  · rfl

/-- `upsert` preserves at-most-one-row-per-id. -/
theorem upsert_preserves_oneRowPerId (rows : SQL.Store) (r : Row)
    (h : oneRowPerId rows) : oneRowPerId (SQL.upsert rows r) := by
  unfold SQL.upsert
  split
  · unfold oneRowPerId at h ⊢
    rw [List.pairwise_map]
    exact h.imp (fun hab => by
      simp only [upsert_id_pointwise]
      exact hab)
  · next hany =>
    unfold oneRowPerId at h ⊢
    rw [List.pairwise_append]
    refine ⟨h, List.pairwise_singleton _ _, ?_⟩
    intro a ha b hb
    simp only [List.mem_singleton] at hb
    subst hb
    intro heq
    exact hany (List.any_eq_true.mpr ⟨a, ha, by simp [heq]⟩)

/-- Replacing rows keyed like `r` is the identity on a store that holds no
row with `r`'s key. -/
theorem map_replace_eq_self (rows : SQL.Store) (r : Row)
    (h : ∀ x ∈ rows, ¬(x.id = r.id)) :
    rows.map (fun x => if x.id = r.id then r else x) = rows := by
  induction rows with
  | nil => rfl
  | cons x xs ih =>
    simp only [List.map_cons]
    rw [if_neg (h x (List.mem_cons_self _ _)),
      ih (fun y hy => h y (List.mem_cons_of_mem _ hy))]

/-- `upsert` is idempotent: re-persisting the same row leaves the store
unchanged. -/
theorem upsert_idem (rows : SQL.Store) (r : Row) :
    SQL.upsert (SQL.upsert rows r) r = SQL.upsert rows r := by
  unfold SQL.upsert
  split
  · next hany =>
    have hany2 : (rows.map (fun x => if x.id = r.id then r else x)).any
        (fun x => x.id = r.id) = true := by
      rw [List.any_eq_true] at hany ⊢
      obtain ⟨x, hx, hpx⟩ := hany
      refine ⟨if x.id = r.id then r else x, List.mem_map_of_mem _ hx, ?_⟩
      simp only [decide_eq_true_eq] at hpx
      simp [hpx]
    rw [if_pos hany2, List.map_map]
    have hff : ((fun x => if x.id = r.id then r else x) ∘
        (fun x => if x.id = r.id then r else x))
        = fun x : Row => if x.id = r.id then r else x := by
      funext x
      by_cases hx : x.id = r.id
      · simp [hx]
      · simp [hx]
    rw [hff]
  · next hany =>
    have hany2 : ((rows ++ [r]).any (fun x => x.id = r.id)) = true := by
      rw [List.any_eq_true]
      exact ⟨r, by simp, by simp⟩
    rw [if_pos hany2, List.map_append]
    simp only [List.any_eq_true, decide_eq_true_eq, not_exists] at hany
    push_neg at hany
    congr 1
    · exact map_replace_eq_self rows r hany
    · simp

/-- Any sequence of `SQL.set` calls preserves at-most-one-row-per-id: the
store only ever changes through `upsert`. -/
theorem sqlRunSets_oneRowPerId (calls : List (String × GameState))
    (c : SQL.Cache) (rows : SQL.Store) (h : oneRowPerId rows) :
    oneRowPerId (sqlRunSets calls c rows).2 := by
  induction calls generalizing c rows with
  | nil => exact h
  | cons p rest ih =>
    obtain ⟨id, s⟩ := p
    simp only [sqlRunSets]
    apply ih
    simp only [SQL.set]
    split
    · exact h
    · exact upsert_preserves_oneRowPerId _ _ h

/-- C5 (amended): on the SQL connector the claim holds — every non-stale
`set` persists through `game.upsert`, keyed by the primary key `id`, so the
table keeps at most one row per game id after any sequence of `set` calls
(from an empty table), and re-persisting the same row leaves the table
unchanged.  The Mongo connector violates the unamended claim: it persists
with `col.insert`, appending one document per non-stale `set` (see the
counterexample), and `get` compensates by selecting the most recent
document. -/
theorem C5_sql_upsert_persistence :
    (∀ (rows : SQL.Store) (r : Row), oneRowPerId rows → oneRowPerId (SQL.upsert rows r))
    ∧ (∀ (rows : SQL.Store) (r : Row), SQL.upsert (SQL.upsert rows r) r = SQL.upsert rows r)
    ∧ (∀ calls : List (String × GameState),
        oneRowPerId (sqlRunSets calls (fun _ => none) []).2) :=
  ⟨upsert_preserves_oneRowPerId, upsert_idem,
    fun calls => sqlRunSets_oneRowPerId calls _ _ List.Pairwise.nil⟩

/-- Witness for C5 (amended): upserting a fresh key into a one-row store
keeps at most one row per id. -/
theorem C5_sql_upsert_persistence_witness :
    oneRowPerId (SQL.upsert [⟨"a", ⟨0, false, 0⟩⟩] ⟨"b", ⟨1, false, 1⟩⟩) :=
  C5_sql_upsert_persistence.1 [⟨"a", ⟨0, false, 0⟩⟩] ⟨"b", ⟨1, false, 1⟩⟩
    (by simp [oneRowPerId])

/-- C6 (amended): connection-failure policy.  The SQL connector logs a
reported authentication failure and `connect()` returns normally either
way, while store errors raised during later `get`/`set`/`has` calls
propagate to the caller unmodified — on the SQL, Mongo and Firebase
connectors alike (for `set`, after the optimistic cache update).  The
unamended claim ("for every connector") fails on the Mongo connector,
whose `connect` propagates the failure and logs nothing — see the
counterexample. -/
theorem C6_connect_error_policy :
    (∀ e, SQL.connect (.connError e) = .ok (some e))
    ∧ (SQL.connect .success = .ok none)
    ∧ (Mongo.connect .success = .ok ())
    ∧ (∀ (c : SQL.Cache) (id : String) (e : JsErr), c id = none →
        (SQL.get c id (.error e)).ret = .error e)
    ∧ (∀ (c : SQL.Cache) (rows : SQL.Store) (id : String) (state : GameState) (e : JsErr),
        SQL.setStale c id state = false →
        (SQL.set c rows id state (some e)).err = some e)
    ∧ (∀ (c : SQL.Cache) (id : String) (e : JsErr), c id = none →
        (SQL.has c id (.error e)).ret = .error e)
    ∧ (∀ (c : Mongo.Cache) (id : String) (e : JsErr), c id = none →
        (Mongo.get c id (.error e)).ret = .error e)
    ∧ (∀ (c : Mongo.Cache) (st : Mongo.Store) (id : String) (state : GameState) (e : JsErr),
        Mongo.setStale c id state = false →
        (Mongo.set c st id state (some e)).err = some e)
    ∧ (∀ (c : Mongo.Cache) (id : String) (e : JsErr), c id = none →
        (Mongo.has c id (.error e)).ret = .error e)
    ∧ (∀ (c : Firebase.Cache) (id : String) (e : JsErr), c id = none →
        (Firebase.get c id (.error e)).ret = .error e)
    ∧ (∀ (c : Firebase.Cache) (st : Firebase.Store) (id : String) (state : GameState) (e : JsErr),
        Firebase.setStale c id state = false →
        (Firebase.set c st id state (some e)).err = some e)
    ∧ (∀ (c : Firebase.Cache) (id : String) (e : JsErr), c id = none →
        (Firebase.has c id (.error e)).ret = .error e) := by
  refine ⟨fun e => rfl, rfl, rfl, ?_, ?_, ?_, ?_, ?_, ?_, ?_, ?_, ?_⟩
  · intro c id e hc
    simp [SQL.get, hc]
  · intro c rows id state e hst
    simp [SQL.set, hst]
  · intro c id e hc
    simp [SQL.has, hc]
  · intro c id e hc
    simp [Mongo.get, hc]
  · intro c st id state e hst
    simp [Mongo.set, hst]
  · intro c id e hc
    simp [Mongo.has, hc]
  · intro c id e hc
    simp [Firebase.get, hc]
  · intro c st id state e hst
    simp [Firebase.set, hst]
  · intro c id e hc
    simp [Firebase.has, hc]

/-- Witness for C6 (amended): a store error during a cache-miss `get`
propagates. -/
theorem C6_connect_error_policy_witness :
    (SQL.get (fun _ => none) "g" (.error (.storeErr 3))).ret = .error (.storeErr 3) :=
  C6_connect_error_policy.2.2.2.1 (fun _ => none) "g" (.storeErr 3) rfl

/-- C7: `has` is cache-pure and discriminates existence.  On both the SQL
and Mongo connectors `has` never changes the cache's entries; it answers
`true` immediately on a cache hit; on a miss it answers `true` exactly when
the durable store holds a document for the id; and for an id never set
(cache miss, empty store result) it answers `false`. -/
theorem C7_has_pure_and_exact :
    (∀ (c : SQL.Cache) (id : String) (fr : Except JsErr (Option Row)),
        (SQL.has c id fr).cache = c)
    ∧ (∀ (c : SQL.Cache) (id : String) (v : CacheVal) (fr : Except JsErr (Option Row)),
        c id = some v → (SQL.has c id fr).ret = .ok true)
    ∧ (∀ (c : SQL.Cache) (rows : SQL.Store) (id : String), c id = none →
        ((SQL.has c id (.ok (SQL.findOne rows id))).ret = .ok true ↔ ∃ r ∈ rows, r.id = id))
    ∧ (∀ (c : SQL.Cache) (id : String), c id = none →
        (SQL.has c id (.ok (SQL.findOne [] id))).ret = .ok false)
    ∧ (∀ (c : Mongo.Cache) (id : String) (fr : Except JsErr (List GameState)),
        (Mongo.has c id fr).cache = c)
    ∧ (∀ (c : Mongo.Cache) (id : String) (v : GameState) (fr : Except JsErr (List GameState)),
        c id = some v → (Mongo.has c id fr).ret = .ok true)
    ∧ (∀ (c : Mongo.Cache) (st : Mongo.Store) (id : String), c id = none →
        ((Mongo.has c id (.ok ((st id).take 1))).ret = .ok true ↔ st id ≠ [])) := by
  refine ⟨?_, ?_, ?_, ?_, ?_, ?_, ?_⟩
  · intro c id fr
    cases fr <;> cases hc : c id <;> simp [SQL.has, hc]
  · intro c id v fr hc
    simp [SQL.has, hc]
  · intro c rows id hc
    simp [SQL.has, hc, SQL.findOne, List.find?_isSome]
  · intro c id hc
    simp [SQL.has, hc, SQL.findOne]
  · intro c id fr
    cases fr <;> cases hc : c id <;> simp [Mongo.has, hc]
  · intro c id v fr hc
    simp [Mongo.has, hc]
  · intro c st id hc
    cases hst : st id <;> simp [Mongo.has, hc, hst]

/-- Witness for C7: on a cache miss, `has` reflects store membership for a
one-row store. -/
theorem C7_has_pure_and_exact_witness :
    ((SQL.has (fun _ => none) "g"
        (.ok (SQL.findOne [⟨"g", ⟨0, false, 0⟩⟩] "g"))).ret = .ok true
      ↔ ∃ r ∈ [(⟨"g", ⟨0, false, 0⟩⟩ : Row)], r.id = "g") :=
  C7_has_pure_and_exact.2.2.1 (fun _ => none) [⟨"g", ⟨0, false, 0⟩⟩] "g" rfl

/-- Appending a row whose key is absent from the store makes it the
`find?` result for that key. -/
theorem find?_append_not_found (rows : SQL.Store) (r : Row)
    (h : ∀ x ∈ rows, ¬(x.id = r.id)) :
    (rows ++ [r]).find? (fun x => x.id = r.id) = some r := by
  induction rows with
  | nil => simp
  | cons x xs ih =>
    have hx : ¬(x.id = r.id) := h x (List.mem_cons_self _ _)
    simp only [List.cons_append, List.find?_cons, decide_eq_false hx]
    exact ih (fun y hy => h y (List.mem_cons_of_mem _ hy))

/-- Replacing the rows keyed like `r` makes `r` the `find?` result for its
key, provided some row with that key is present. -/
theorem find?_map_replace (rows : SQL.Store) (r : Row)
    (h : rows.any (fun x => x.id = r.id) = true) :
    (rows.map (fun x => if x.id = r.id then r else x)).find?
      (fun x => x.id = r.id) = some r := by
  induction rows with
  | nil => simp at h
  | cons x xs ih =>
    by_cases hx : x.id = r.id
    · simp [List.find?_cons, hx]
    · simp only [List.any_cons, Bool.or_eq_true, decide_eq_true_eq] at h
      rcases h with h1 | h2
      · exact absurd h1 hx
      · simp only [List.map_cons, List.find?_cons, if_neg hx, decide_eq_false hx]
        exact ih h2

/-- After an `upsert`, `findOne` on the upserted key returns the upserted
row. -/
theorem findOne_upsert (rows : SQL.Store) (r : Row) :
    SQL.findOne (SQL.upsert rows r) r.id = some r := by
  unfold SQL.upsert SQL.findOne
  split
  · next hany => exact find?_map_replace rows r hany
  · next hany =>
    refine find?_append_not_found rows r ?_
    simp only [List.any_eq_true, decide_eq_true_eq, not_exists] at hany
    push_neg at hany
    exact hany

/-- C9: `set` mutates its argument.  On the SQL, Mongo and Firebase
connectors, every `set` that passes the staleness guard executes `delete
state._id` before persisting; because `cache.set(id, state)` stored the
same object reference, after the call the caller's object and the cached
entry are the same `_id`-less value, and the persisted document carries
that same stripped state. -/
theorem C9_set_mutates_argument :
    (∀ (c : SQL.Cache) (rows : SQL.Store) (id : String) (state : GameState),
      SQL.setStale c id state = false →
      (SQL.set c rows id state none).caller = stripId state
      ∧ (SQL.set c rows id state none).caller.hasId = false
      ∧ (SQL.set c rows id state none).cache id
          = some (.state (SQL.set c rows id state none).caller)
      ∧ SQL.findOne (SQL.set c rows id state none).store id
          = some ⟨id, (SQL.set c rows id state none).caller⟩)
    ∧ (∀ (c : Mongo.Cache) (st : Mongo.Store) (id : String) (state : GameState),
      Mongo.setStale c id state = false →
      (Mongo.set c st id state none).caller = stripId state
      ∧ (Mongo.set c st id state none).caller.hasId = false
      ∧ (Mongo.set c st id state none).cache id
          = some (Mongo.set c st id state none).caller
      ∧ (Mongo.set c st id state none).store id
          = st id ++ [(Mongo.set c st id state none).caller])
    ∧ (∀ (c : Firebase.Cache) (st : Firebase.Store) (id : String) (state : GameState),
      Firebase.setStale c id state = false →
      (Firebase.set c st id state none).caller = stripId state
      ∧ (Firebase.set c st id state none).caller.hasId = false
      ∧ (Firebase.set c st id state none).cache id
          = some (Firebase.set c st id state none).caller
      ∧ (Firebase.set c st id state none).store id
          = some (Firebase.set c st id state none).caller) := by
  refine ⟨?_, ?_, ?_⟩
  · intro c rows id state hst
    refine ⟨?_, ?_, ?_, ?_⟩
    · simp [SQL.set, hst]
    · simp [SQL.set, hst, stripId]
    · simp [SQL.set, hst, SQL.cacheWrite]
    · simp only [SQL.set, hst, Bool.false_eq_true, if_false]
      exact findOne_upsert rows ⟨id, stripId state⟩
  · intro c st id state hst
    refine ⟨?_, ?_, ?_, ?_⟩
    · simp [Mongo.set, hst]
    · simp [Mongo.set, hst, stripId]
    · simp [Mongo.set, hst, Mongo.cacheWrite]
    · simp [Mongo.set, hst]
  · intro c st id state hst
    refine ⟨?_, ?_, ?_, ?_⟩
    · simp [Firebase.set, hst]
    · simp [Firebase.set, hst, stripId]
    · simp [Firebase.set, hst, Firebase.cacheWrite]
    · simp [Firebase.set, hst]

/-- Witness for C9: a cold `set` of a state carrying `_id` leaves the
caller's object without `_id`. -/
theorem C9_set_mutates_argument_witness :
    (SQL.set (fun _ => none) [] "g" stateWithId none).caller.hasId = false :=
  (C9_set_mutates_argument.1 (fun _ => none) [] "g" stateWithId rfl).2.1
